import Mathlib

/-!
Shallow embedding of `theanets/graph.py` (the `Network` class): layer
specification normalization, topology building, graph/function caching,
error computation, loss assembly and parameter persistence.

External collaborators (the `layers` module factory/registry, theano tensor
operators, hashlib) are modelled from the interfaces the spec describes;
everything else is translated directly from the source.
-/

namespace Theanets

/-- One element of a tuple-form layer spec, as scanned by `setup_layers`
(lines 200-213): a string (form name or activation), an integer (size), or a
`layers.Layer` subclass, identified by its class name (`el.__name__`). -/
inductive TupElem where
  | str (s : String)
  | int (n : Nat)
  | cls (name : String)
deriving DecidableEq, Repr

/-- A layer specification element (`LayerSpec` in the data model): a bare
integer size; a tuple of mixed hints; a mapping (modelled with the keys the
normalizer consumes: optional `form`, `size`, `activation` — present keys
override the computed defaults via `kwargs.update(spec)`); or a pre-built
`Layer` instance, carried here by its observable fields (class name, name,
size) since a prebuilt layer is appended to the layer list verbatim. -/
inductive LayerSpec where
  | int (n : Nat)
  | tup (els : List TupElem)
  | dict (form : Option String) (size : Option Nat) (activation : Option String)
  | prebuilt (className : String) (name : String) (size : Nat)
deriving DecidableEq, Repr

/-- The dynamically-typed `size` slot of a layer: a genuine integer size, a
non-integer spec value passed verbatim (no validation in this core), or
never set (the factory call received no `size` keyword). -/
inductive LSize where
  | nat (n : Nat)
  | raw (s : LayerSpec)
  | unset
deriving DecidableEq, Repr

mutual
/-- A symbolic tensor expression, as assembled by `build_graph`: the input
variable `x`; the output of a layer's `output(inputs, noise, dropout)` call
(`single` records whether Python passed a bare expression or a list of
expressions as `inputs`); or the network error expression built by
`Network.error` from the decoder output (and `x`, plus `weights` when the
network is weighted). `ExprList` is an inlined list of expressions,
isomorphic to `List Expr`. -/
inductive Expr where
  | x : Expr
  | layerOut (name : String) (single : Bool) (ins : ExprList)
      (noise dropout : ℚ) : Expr
  | errExpr (weighted : Bool) (output : Expr) : Expr
/-- A list of symbolic expressions (the `inputs` argument of a layer's
`output` method when Python passes a list). -/
inductive ExprList where
  | nil : ExprList
  | cons (head : Expr) (tail : ExprList) : ExprList
end

deriving instance DecidableEq for Expr
deriving instance Repr for Expr

/-- Convert a `List Expr` into the inlined `ExprList`. -/
def ExprList.ofList : List Expr → ExprList
  | [] => .nil
  | e :: es => .cons e (ExprList.ofList es)

/-- Convert an inlined `ExprList` back to a `List Expr`. -/
def ExprList.toList : ExprList → List Expr
  | .nil => []
  | .cons e es => e :: ExprList.toList es

/-- The list of input expressions a `layerOut` node was built from
(Python's `inputs` argument to `layer.output`); `[]` on other nodes. -/
def Expr.inComps : Expr → List Expr
  | .layerOut _ _ ins _ _ => ins.toList
  | _ => []

/-- A constructed layer, by the fields this core observes: the class name
(used in `_hash`), `name`, `size`, `activation`, the names of the default
input wires (`'{prev}.out'`), the decoder's `nin` argument, and the monitor
and update pairs that the (external) `layer.output` call yields. -/
structure Layer where
  className : String
  name : String
  size : LSize
  activation : String
  inWire : List String := []
  nin : List LSize := []
  mons : List (String × Expr) := []
  upds : List (String × Expr) := []
deriving DecidableEq, Repr

/-- The construction keyword arguments of `Network.__init__` that this core
reads: `layers` (present or absent), `hidden_activation`,
`output_activation`, `weighted` (truthiness of `kwargs.get('weighted')`),
and `decode_from` (`kwargs.get('decode_from', 1)`). -/
structure Kwargs where
  layers : Option (List LayerSpec) := none
  hidden_activation : Option String := none
  output_activation : Option String := none
  weighted : Bool := false
  decode_from : Option Nat := none
deriving DecidableEq, Repr

/-- Modelled from the spec: the external layer registry
`layers.Layer._registry`, a set of form names queryable case-insensitively
(§6: "a form-name registry queryable case-insensitively"). The exact
membership is external; this fixed list models the registered form names. -/
def registry : List String :=
  ["input", "feedforward", "classifier", "tied", "rnn", "mrnn", "lstm",
   "bidirectional"]

/-- The construction-kwargs mapping assembled by the normalizer in
`setup_layers` before the `layers.build(form, **kwargs)` call. -/
structure BuildReq where
  form : String
  name : String
  size : LSize
  activation : String
  inWire : List String
deriving DecidableEq, Repr

/-- Normalize one non-prebuilt encoder spec element into a construction
request, following `setup_layers` lines 181-226: defaults are
`form='feedforward'`, `name='hid{count}'`, input wiring to the previous
layer's `out`, activation from `hidden_activation` (default `'logistic'`);
then the element's shape (integer / tuple / mapping) refines them, and a
resolved `bidirectional` form renames the layer to `bd{worker}{count}`
(`worker` defaults to `'rnn'`; an explicit `worker` override is not
modelled). -/
def normalize (hact : String) (prevName : String) (cnt : Nat)
    (s : LayerSpec) : BuildReq :=
  let base : BuildReq :=
    { form := "feedforward", name := "hid" ++ toString cnt,
      size := .unset, activation := hact,
      inWire := [prevName ++ ".out"] }
  let r :=
    match s with
    | .int n => { base with size := .nat n }
    | .tup els =>
        let r := els.foldl (fun r el =>
          match el with
          | .cls c => { r with form := c }
          | .str t =>
              if t.toLower ∈ registry then { r with form := t }
              else { r with activation := t }
          | .int n => { r with size := .nat n }) base
        { r with name := r.form ++ toString cnt }
    | .dict f sz act =>
        let r :=
          match f with
          | some f' =>
              { base with form := f'.toLower, name := f'.toLower ++ toString cnt }
          | none => base
        let r := match sz with
          | some n => { r with size := .nat n }
          | none => r
        match act with
        | some a => { r with activation := a }
        | none => r
    | .prebuilt _ _ _ => base
  if r.form.toLower = "bidirectional" then
    { r with name := "bd" ++ "rnn" ++ toString cnt }
  else r

/-- Modelled from the spec: the external factory `layers.build(form,
**kwargs) -> Layer` (§6). The built layer carries the request's fields; its
class name is the resolved form tag, and its own monitors/updates are those
its `output` method will later yield (none are modelled for
factory-built layers). -/
def layersBuild (r : BuildReq) : Layer :=
  { className := r.form, name := r.name, size := r.size,
    activation := r.activation, inWire := r.inWire }

/-- Modelled from the spec: `layers.build('input', spec0, rng=rng,
name='in')` — the external factory constructs the input layer from the raw
first spec element, named `'in'`. -/
def buildInputLayer (s : LayerSpec) : Layer :=
  { className := "input", name := "in",
    size := (match s with | .int n => .nat n | s' => .raw s'),
    activation := "" }

/-- The raw `size` argument handed to the decoder factory call: an integer
last element is an integer size, any other shape is passed verbatim. -/
def rawSize : LayerSpec → LSize
  | .int n => .nat n
  | s => .raw s

/-- One step of the encoder loop of `setup_layers` (lines 175-228): a
prebuilt `Layer` instance is appended as-is; any other element is
normalized (with `len(self.layers)` as the running count and the previous
layer for input wiring) and built via the factory. -/
def encodeStep (hact : String) (acc : List Layer) (s : LayerSpec) :
    List Layer :=
  match s with
  | .prebuilt c n sz =>
      acc ++ [{ className := c, name := n, size := .nat sz, activation := "" }]
  | _ =>
      let prev := (acc.getLastD (buildInputLayer (.int 0))).name
      acc ++ [layersBuild (normalize hact prev acc.length s)]

/-- Python `lst[-k:]`: the whole list when `k = 0` (since `-0 = 0`), else
the last `k` elements (all of them when `k ≥ len`). -/
def negSlice (l : List α) (k : Nat) : List α :=
  if k = 0 then l else l.drop (l.length - k)

/-- `setup_decoder` (lines 233-258): appends the output layer, a
`feedforward` layer named `'out'` whose `nin` is the last built size (when
`decode_from <= 1`) or the last `decode_from` built sizes, whose `size` is
the raw last element of the `layers` option taken verbatim, and whose
activation is the `output_activation` (default `'linear'`). -/
def setup_decoder (k : Kwargs) (built : List Layer) (lastSpec : LayerSpec) :
    Layer :=
  let sizes := built.map (·.size)
  let back := k.decode_from.getD 1
  { className := "feedforward", name := "out",
    size := rawSize lastSpec,
    nin := if back ≤ 1 then [sizes.getLastD .unset] else negSlice sizes back,
    activation := k.output_activation.getD "linear" }

/-- `setup_layers` (lines 153-231): a no-op when the `layers` option is
absent; otherwise `specs = kwargs['layers'][:-1]`, whose first element is
popped for the input layer (`specs.pop(0)` raises `IndexError` — modelled
as `none` — when `specs` is empty, i.e. for specs of length ≤ 1), the
remaining elements are folded through the encoder loop, and finally the
decoder is appended. -/
def setup_layers (k : Kwargs) : Option (List Layer) :=
  match k.layers with
  | none => some []
  | some spec =>
      match spec.dropLast with
      | [] => none
      | s0 :: rest =>
          let hact := k.hidden_activation.getD "logistic"
          let built := rest.foldl (encodeStep hact) [buildInputLayer s0]
          some (built ++ [setup_decoder k built (spec.getLastD (.int 0))])

/-- `setup_vars` (lines 109-133): the network's input variables are
`[x, weights]` when the `weighted` option is truthy, and `[x]` otherwise
(the `self.weights` attribute itself is created unconditionally; this list
is what the constructor stores as `self.inputs`). -/
def setup_vars (k : Kwargs) : List String :=
  if k.weighted then ["x", "weights"] else ["x"]

/-- Per-call keyword options of `build_graph` (and hence of the cache key):
noise and dropout levels, all defaulting to 0. Regularization options of
`loss` are not carried: the claims exercise `loss` without them, where the
regularizer sum is empty. -/
structure BuildKwargs where
  input_noise : ℚ := 0
  hidden_noise : ℚ := 0
  input_dropouts : ℚ := 0
  hidden_dropouts : ℚ := 0
deriving DecidableEq, Repr

/-- The content hashed by `_hash` (lines 286-303): the rendering of the
call kwargs together with, for every layer in order, its class name, name
and size. The external `hashlib.md5` digest of the rendered string is
modelled as the identity embedding of this content (a collision-free
digest), and the kwargs dict is modelled as a canonical record, abstracting
from Python dict insertion order. -/
structure GraphKey where
  kw : BuildKwargs
  sig : List (String × String × LSize)
deriving DecidableEq, Repr

/-- The value of one graph-cache entry: the per-layer output expressions,
the accumulated `(name, expression)` monitor pairs, and the accumulated
update pairs. -/
abbrev GraphVal : Type :=
  List Expr × List (String × Expr) × List (String × Expr)

instance : DecidableEq GraphVal :=
  inferInstanceAs
    (DecidableEq (List Expr × List (String × Expr) × List (String × Expr)))

/-- The value of one function-cache entry: `theano.function([x], outputs,
updates=updates)` is modelled by the data it closes over — the outputs list
and the updates list (its execution is external). -/
abbrev FunVal : Type := List Expr × List (String × Expr)

instance : DecidableEq FunVal :=
  inferInstanceAs (DecidableEq (List Expr × List (String × Expr)))

/-- The `Network` object state this core mutates: the construction kwargs,
the input-variable list, the layer list, and the two process-lifetime
caches `_graphs` and `_functions` (Python dicts, modelled as association
lists in insertion order). -/
structure Network where
  kwargs : Kwargs
  inputs : List String
  layers : List Layer
  graphs : List (GraphKey × GraphVal) := []
  functions : List (GraphKey × FunVal) := []
deriving DecidableEq

/-- Dictionary lookup on the association-list model of a Python dict. -/
def lookupKey (c : List (GraphKey × α)) (k : GraphKey) : Option α :=
  match c with
  | [] => none
  | (k', v) :: rest => if k' = k then some v else lookupKey rest k

/-- In-place replacement of the value stored under a key (the effect of
mutating, through an alias, the list object a dict entry holds). -/
def setKey : List (GraphKey × α) → GraphKey → α → List (GraphKey × α)
  | [], _, _ => []
  | p :: rest, k, v => (if p.1 = k then (k, v) else p) :: setKey rest k v

/-- `_hash(**kwargs)` for the current network (see `GraphKey`). -/
def hashKey (net : Network) (kw : BuildKwargs) : GraphKey :=
  ⟨kw, net.layers.map (fun l => (l.className, l.name, l.size))⟩

/-- Modelled from the spec: the external layer method `output(inputs,
noise, dropout) -> (expression, monitors, updates)` (§6) — the output
expression records the call, and the monitor/update pairs are the layer's
own. -/
def Layer.outputOf (l : Layer) (single : Bool) (ins : List Expr)
    (noise dropout : ℚ) :
    Expr × List (String × Expr) × List (String × Expr) :=
  (.layerOut l.name single (ExprList.ofList ins) noise dropout, l.mons, l.upds)

/-- One iteration of the `build_graph` loop (lines 333-351) at index `i` of
`n` layers: layer 0 receives the raw input variable and the input
noise/dropout options; the last layer receives the list of the most recent
`decode_from` prior outputs (`outputs[-back:]`) and the hidden
noise/dropout options; every other layer receives the single previous
output and zero noise/dropout (the per-iteration initialization
`noise = dropout = 0` is never overridden on the middle branch). -/
def graphStep (n : Nat) (back : Nat) (kw : BuildKwargs)
    (acc : GraphVal) (p : Nat × Layer) : GraphVal :=
  let (outputs, monitors, updates) := acc
  let (i, layer) := p
  let (single, ins, noise, dropout) :=
    if i = 0 then
      (true, [Expr.x], kw.input_noise, kw.input_dropouts)
    else if i = n - 1 then
      (false, negSlice outputs back, kw.hidden_noise, kw.hidden_dropouts)
    else
      (true, [outputs.getLastD Expr.x], (0 : ℚ), (0 : ℚ))
  let (out, mon, upd) := layer.outputOf single ins noise dropout
  (outputs ++ [out], monitors ++ mon, updates ++ upd)

/-- The cache-miss computation of `build_graph`: walk the layer list once in
order, accumulating outputs, monitors and updates. -/
def computeGraph (ls : List Layer) (back : Nat) (kw : BuildKwargs) :
    GraphVal :=
  ls.enum.foldl (graphStep ls.length back kw) ([], [], [])

/-- `build_graph(**kwargs)` (lines 305-353): compute the key; on a miss,
compute the graph and store it; return the cached tuple. -/
def Network.build_graph (net : Network) (kw : BuildKwargs) :
    Network × GraphVal :=
  let key := hashKey net kw
  match lookupKey net.graphs key with
  | some v => (net, v)
  | none =>
      let v := computeGraph net.layers (net.kwargs.decode_from.getD 1) kw
      ({ net with graphs := net.graphs ++ [(key, v)] }, v)

/-- `extra_monitors` (lines 497-511): the base class contributes no extra
monitors. -/
def extra_monitors (_outputs : List Expr) : List (String × Expr) := []

/-- `loss(**kwargs)` (lines 513-557), for calls without regularization
options (the regularizer sum is then empty and the returned loss is the
error expression): build (or fetch) the graph, form the error expression
over the last output, then `monitors.insert(0, ('err', err))` and
`monitors.extend(self.extra_monitors(outputs))`. In Python these two calls
mutate the very list object stored in the `_graphs` cache entry (the cached
tuple aliases it), which the model renders by writing the mutated monitors
back into the cache under the same key. -/
def Network.loss (net : Network) (kw : BuildKwargs) :
    Network × (Expr × List (String × Expr) × List (String × Expr)) :=
  let r := net.build_graph kw
  let net1 := r.1
  let outputs := r.2.1
  let updates := r.2.2.2
  let err := Expr.errExpr net1.kwargs.weighted (outputs.getLastD Expr.x)
  let monitors1 := ("err", err) :: r.2.2.1 ++ extra_monitors outputs
  let key := hashKey net1 kw
  let net2 :=
    { net1 with graphs := setKey net1.graphs key (outputs, monitors1, updates) }
  (net2, (err, monitors1, updates))

/-- `feed_forward(x, **kwargs)` (lines 409-435), caching part: compute the
key; on a function-cache miss, build the graph and compile (and store) a
function from its outputs and updates; return the cached function. The
execution of the compiled function on the input array is external. -/
def Network.feed_forward (net : Network) (kw : BuildKwargs) :
    Network × FunVal :=
  let key := hashKey net kw
  match lookupKey net.functions key with
  | some f => (net, f)
  | none =>
      let r := net.build_graph kw
      let f : FunVal := (r.2.1, r.2.2.2)
      ({ r.1 with functions := r.1.functions ++ [(key, f)] }, f)

/-- The `Network` constructor (lines 101-107): set up input variables and
layers; a failing `setup_layers` (IndexError) aborts construction. -/
def networkNew (k : Kwargs) : Option Network :=
  match setup_layers k with
  | none => none
  | some ls => some { kwargs := k, inputs := setup_vars k, layers := ls }

/-! ### Numeric error semantics (`Network.error`, lines 135-151) -/

/-- Elementwise combination of two matrices (theano broadcasting is not
needed: all operands share one shape here). -/
def matZip (f : ℚ → ℚ → ℚ) (a b : List (List ℚ)) : List (List ℚ) :=
  List.zipWith (fun r s => List.zipWith f r s) a b

/-- `.sum()` over all entries of a matrix. -/
def matSum (a : List (List ℚ)) : ℚ :=
  (a.map fun r => r.sum).sum

/-- The number of entries of a matrix (the divisor of `.mean()`). -/
def matCount (a : List (List ℚ)) : Nat :=
  (a.map List.length).sum

/-- The value of the expression built by `Network.error(output)` on
concrete matrices: `err = output - x`; in weighted mode
`(weights * err * err).sum() / weights.sum()`, otherwise
`(err * err).mean()` (total sum over total entry count). -/
def errorVal (weighted : Bool) (x output weights : List (List ℚ)) : ℚ :=
  let err := matZip (· - ·) output x
  let sq := matZip (· * ·) err err
  if weighted then
    matSum (matZip (· * ·) weights sq) / matSum weights
  else
    matSum sq / (matCount sq : ℚ)

/-! ### Parameter persistence (`save` / `load_params`, lines 458-495) -/

/-- A layer as persistence sees it: its name and the ordered numeric values
of its parameters (`[p.get_value() for p in layer.params]`; each stored
array value is modelled as an opaque integer). -/
structure PLayer where
  name : String
  params : List Int
deriving DecidableEq, Repr

/-- Key lookup in the unpickled record (a Python dict: `saved[key]`;
`none` models the `KeyError` on a missing key). -/
def strLookup (saved : List (String × List Int)) (k : String) :
    Option (List Int) :=
  match saved with
  | [] => none
  | (k', v) :: rest => if k' = k then some v else strLookup rest k

/-- The record written by `save` (lines 458-476), restricted to the
per-layer entries: one `'{layer.name}-values'` key per layer, mapping to
the layer's parameter values (the `klass`/`kwargs` entries are carried
elsewhere). -/
def saveRecord (ls : List PLayer) : List (String × List Int) :=
  ls.map fun l => (l.name ++ "-values", l.params)

/-- The effect of `for p, v in zip(layer.params, vs): p.set_value(v)`:
positions covered by the zip take the stored values, positions past the
shorter list keep their old values. -/
def setParams (ps vs : List Int) : List Int :=
  let m := min ps.length vs.length
  vs.take m ++ ps.drop m

/-- The loop of `load_params` with the layers already processed in `done`:
each current layer looks up `saved['{name}-values']`; a missing key raises
`KeyError` (`Except.error`, carrying the layer state at the raise — earlier
`set_value` mutations persist), otherwise the zipped values are written and
the loop continues. -/
def loadParamsAux (saved : List (String × List Int)) :
    List PLayer → List PLayer → Except (List PLayer) (List PLayer)
  | done, [] => .ok done
  | done, l :: rest =>
      match strLookup saved (l.name ++ "-values") with
      | none => .error (done ++ l :: rest)
      | some vs =>
          loadParamsAux saved (done ++ [{ l with params := setParams l.params vs }]) rest

/-- `load_params` (lines 478-495), on the unpickled record: iterate over
the current layers in order, copying stored values into each layer's
parameters in list order; `Except.ok` is a completed load, `Except.error`
a `KeyError` raised partway (with the partially-updated layers). -/
def load_params (ls : List PLayer) (saved : List (String × List Int)) :
    Except (List PLayer) (List PLayer) :=
  loadParamsAux saved [] ls

/-- Whether a `load_params` run completed without raising. -/
def isOkE : Except (List PLayer) (List PLayer) → Bool
  | .ok _ => true
  | .error _ => false

/-! ## Theorems -/

/-- The `load_params` loop completes without raising exactly when every
remaining layer's `'{name}-values'` key is present in the record. -/
theorem isOkE_loadParamsAux (saved : List (String × List Int)) :
    ∀ (rest done : List PLayer),
      isOkE (loadParamsAux saved done rest) =
        rest.all (fun l => (strLookup saved (l.name ++ "-values")).isSome) := by
  intro rest
  induction rest with
  | nil => intro done; rfl
  | cons l rest ih =>
      intro done
      unfold loadParamsAux
      cases hs : strLookup saved (l.name ++ "-values") with
      | none => simp [isOkE, hs]
      | some vs => simp [hs, ih]

/-- C1, counterexample: on a network with one layer named `in` and a
persisted record lacking the `in-values` key, `load_params` raises a
`KeyError` (modelled as `Except.error`) instead of silently skipping the
layer and leaving it unchanged. -/
theorem c1_counterexample :
    load_params [⟨"in", [7]⟩] [] = Except.error [⟨"in", [7]⟩] ∧
    load_params [⟨"in", [7]⟩] [] ≠ Except.ok [⟨"in", [7]⟩] :=
  ⟨rfl, fun h => nomatch h⟩

/-- C1 (amended): `load_params` completes without an error exactly when
every current layer's name has a `'{name}-values'` key in the record; a
current layer whose key is missing makes the call raise a `KeyError`
(layers processed before it have already been updated), rather than being
silently skipped. Record keys matching no current layer are ignored. -/
theorem c1_load_params_ok_iff (ls : List PLayer)
    (saved : List (String × List Int)) :
    isOkE (load_params ls saved) =
      ls.all (fun l => (strLookup saved (l.name ++ "-values")).isSome) :=
  isOkE_loadParamsAux saved ls []

/-- C3, counterexample: on the literal example `x=[[1,0],[0,1]]`,
`y=[[0,0],[0,0]]`, `w=[[1,1],[0,0]]`, the weighted error
`sum(w*(y-x)**2)/sum(w)` equals `1/2` (namely `1/2`), not `1.0` as the
claim states. -/
theorem c3_counterexample :
    errorVal true [[1, 0], [0, 1]] [[0, 0], [0, 0]] [[1, 1], [0, 0]] = 1 / 2 ∧
    ¬ errorVal true [[1, 0], [0, 1]] [[0, 0], [0, 0]] [[1, 1], [0, 0]] = 1 := by
  constructor <;> norm_num [errorVal, matZip, matSum, matCount]

/-- C3 (amended): the network error is `mean((y-x)**2)` in unweighted mode
and `sum(w*(y-x)**2)/sum(w)` in weighted mode; on the literal 2×2 example
`x=[[1,0],[0,1]]`, `y=[[0,0],[0,0]]` the unweighted error equals `0.5`,
and with `w=[[1,1],[0,0]]` the weighted error equals `0.5` (not `1.0`). -/
theorem c3_amended :
    errorVal false [[1, 0], [0, 1]] [[0, 0], [0, 0]] [[1, 1], [0, 0]] = 1 / 2 ∧
    errorVal true [[1, 0], [0, 1]] [[0, 0], [0, 0]] [[1, 1], [0, 0]] = 1 / 2 := by
  constructor <;> norm_num [errorVal, matZip, matSum, matCount]

/-- C9: for every successfully constructed network, the `weights` variable
is among the network's input variables exactly when the `weighted`
construction option is true, and the input-variable list is
`[x, weights]` when `weighted` is true and exactly `[x]` otherwise. -/
theorem c9_weights_iff_weighted (k : Kwargs) (net : Network)
    (h : networkNew k = some net) :
    ("weights" ∈ net.inputs ↔ k.weighted = true) ∧
    net.inputs = (if k.weighted then ["x", "weights"] else ["x"]) := by
  have hi : net.inputs = setup_vars k := by
    cases hs : setup_layers k with
    | none => simp [networkNew, hs] at h
    | some ls =>
        simp [networkNew, hs] at h
        rw [← h]
  rw [hi]
  cases hw : k.weighted <;> simp [setup_vars, hw]

/-- A concrete network constructed with `weighted := true` (and no
`layers` option). -/
def netW : Network :=
  { kwargs := { weighted := true }, inputs := ["x", "weights"], layers := [] }

/-- C9, witness: the weighted construction of `netW` has input variables
`[x, weights]`, and `weights` is among them. -/
theorem c9_witness :
    ("weights" ∈ netW.inputs ↔ ({ weighted := true } : Kwargs).weighted = true) ∧
    netW.inputs =
      (if ({ weighted := true } : Kwargs).weighted then ["x", "weights"]
       else ["x"]) :=
  c9_weights_iff_weighted { weighted := true } netW rfl

/-! ### Cache behaviour of `build_graph`, `loss` and `feed_forward` -/

/-- Appending an entry for an absent key makes it the looked-up one. -/
theorem lookupKey_append_of_none {c : List (GraphKey × α)} {k : GraphKey}
    (v : α) (h : lookupKey c k = none) :
    lookupKey (c ++ [(k, v)]) k = some v := by
  induction c with
  | nil => simp [lookupKey]
  | cons p rest ih =>
      obtain ⟨k', v'⟩ := p
      simp only [lookupKey, List.cons_append] at h ⊢
      by_cases hp : k' = k
      · rw [if_pos hp] at h; exact absurd h (by simp)
      · rw [if_neg hp] at h ⊢; exact ih h

/-- Appending entries never changes the value found under a present key. -/
theorem lookupKey_append_of_some {c : List (GraphKey × α)} {k : GraphKey}
    {v : α} (d : List (GraphKey × α)) (h : lookupKey c k = some v) :
    lookupKey (c ++ d) k = some v := by
  induction c with
  | nil => simp [lookupKey] at h
  | cons p rest ih =>
      obtain ⟨k', v'⟩ := p
      simp only [lookupKey, List.cons_append] at h ⊢
      by_cases hp : k' = k
      · rwa [if_pos hp] at h ⊢
      · rw [if_neg hp] at h ⊢; exact ih h

/-- Overwriting a present key in place changes exactly its value. -/
theorem lookupKey_setKey_of_some {c : List (GraphKey × α)} {k : GraphKey}
    {v : α} (w : α) (h : lookupKey c k = some v) :
    lookupKey (setKey c k w) k = some w := by
  induction c with
  | nil => simp [lookupKey] at h
  | cons p rest ih =>
      obtain ⟨k', v'⟩ := p
      by_cases hp : k' = k
      · show lookupKey ((if k' = k then (k, w) else (k', v')) :: setKey rest k w)
            k = some w
        rw [if_pos hp]
        show (if k = k then some w else lookupKey (setKey rest k w) k) = some w
        rw [if_pos rfl]
      · show lookupKey ((if k' = k then (k, w) else (k', v')) :: setKey rest k w)
            k = some w
        rw [if_neg hp]
        show (if k' = k then some v' else lookupKey (setKey rest k w) k) = some w
        rw [if_neg hp]
        have h' : lookupKey rest k = some v := by
          have h'' : (if k' = k then some v' else lookupKey rest k) = some v := h
          rwa [if_neg hp] at h''
        exact ih h'

/-- `build_graph` on a cache hit returns the network unchanged together
with the stored value. -/
theorem build_graph_eq_of_some {net : Network} {kw : BuildKwargs}
    {v : GraphVal} (h : lookupKey net.graphs (hashKey net kw) = some v) :
    net.build_graph kw = (net, v) := by
  simp only [Network.build_graph, h]

/-- `build_graph` on a cache miss computes the graph, stores it and returns
it. -/
theorem build_graph_eq_of_none {net : Network} {kw : BuildKwargs}
    (h : lookupKey net.graphs (hashKey net kw) = none) :
    net.build_graph kw =
      ({ net with
          graphs := net.graphs ++
            [(hashKey net kw,
              computeGraph net.layers (net.kwargs.decode_from.getD 1) kw)] },
       computeGraph net.layers (net.kwargs.decode_from.getD 1) kw) := by
  simp only [Network.build_graph, h]

/-- `build_graph` never changes the layer list. -/
theorem build_graph_layers (net : Network) (kw : BuildKwargs) :
    ((net.build_graph kw).1).layers = net.layers := by
  cases h : lookupKey net.graphs (hashKey net kw) with
  | some v => rw [build_graph_eq_of_some h]
  | none => rw [build_graph_eq_of_none h]

/-- `build_graph` never changes the construction kwargs. -/
theorem build_graph_kwargs (net : Network) (kw : BuildKwargs) :
    ((net.build_graph kw).1).kwargs = net.kwargs := by
  cases h : lookupKey net.graphs (hashKey net kw) with
  | some v => rw [build_graph_eq_of_some h]
  | none => rw [build_graph_eq_of_none h]

/-- The graph key depends only on the call kwargs and the layer list. -/
theorem hashKey_eq_of_layers {n1 n2 : Network} (h : n1.layers = n2.layers)
    (kw : BuildKwargs) : hashKey n1 kw = hashKey n2 kw := by
  simp [hashKey, h]

/-- After any `build_graph` call, the key's entry holds the returned
value. -/
theorem build_graph_lookup (net : Network) (kw : BuildKwargs) :
    lookupKey ((net.build_graph kw).1).graphs (hashKey net kw) =
      some ((net.build_graph kw).2) := by
  cases h : lookupKey net.graphs (hashKey net kw) with
  | some v => rw [build_graph_eq_of_some h]; exact h
  | none => rw [build_graph_eq_of_none h]; exact lookupKey_append_of_none _ h

/-- The value returned by `build_graph` when the key is already cached. -/
theorem build_graph_snd_of_some {net : Network} {kw : BuildKwargs}
    {v : GraphVal} (h : lookupKey net.graphs (hashKey net kw) = some v) :
    (net.build_graph kw).2 = v := by
  rw [build_graph_eq_of_some h]

/-- `build_graph` preserves every already-stored graph-cache entry. -/
theorem build_graph_preserves {net : Network} {kw : BuildKwargs}
    {k : GraphKey} {v : GraphVal} (h : lookupKey net.graphs k = some v) :
    lookupKey ((net.build_graph kw).1).graphs k = some v := by
  cases hc : lookupKey net.graphs (hashKey net kw) with
  | some w => rw [build_graph_eq_of_some hc]; exact h
  | none => rw [build_graph_eq_of_none hc]; exact lookupKey_append_of_some _ h

/-- C5: calling `build_graph` twice with identical options on an unchanged
layer list is idempotent — the second call returns the same state and
value as the first, and the returned value is (identity-wise) the entry
stored in the graph cache, with no recomputation on the second call. -/
theorem c5_build_graph_memoized (net : Network) (kw : BuildKwargs) :
    (net.build_graph kw).1.build_graph kw = net.build_graph kw ∧
    lookupKey ((net.build_graph kw).1).graphs (hashKey net kw) =
      some ((net.build_graph kw).2) := by
  have h2 := build_graph_lookup net kw
  refine ⟨?_, h2⟩
  have hk : hashKey (net.build_graph kw).1 kw = hashKey net kw :=
    hashKey_eq_of_layers (build_graph_layers net kw) kw
  rw [← hk] at h2
  rw [build_graph_eq_of_some h2]

/-- C2 (amended): a graph-cache entry is never overwritten by `build_graph`
itself, but `loss` mutates the stored monitors list in place through the
cached alias: after `loss(**kwargs)` has been invoked, `build_graph` with
the same key returns the entry with `('err', error-expression)` prepended
to the monitors (and the extra monitors appended), no longer the per-layer
monitors alone. -/
theorem c2_loss_mutates_cached_monitors (net : Network) (kw : BuildKwargs) :
    (((net.loss kw).1).build_graph kw).2 =
      ((net.build_graph kw).2.1,
       ("err", Expr.errExpr net.kwargs.weighted
           ((net.build_graph kw).2.1.getLastD Expr.x)) ::
         (net.build_graph kw).2.2.1 ++ extra_monitors (net.build_graph kw).2.1,
       (net.build_graph kw).2.2.2) := by
  have hk : hashKey (net.build_graph kw).1 kw = hashKey net kw :=
    hashKey_eq_of_layers (build_graph_layers net kw) kw
  have h2 := build_graph_lookup net kw
  rw [← hk] at h2
  have hkw := build_graph_kwargs net kw
  simp only [Network.loss]
  rcases hbg : net.build_graph kw with ⟨N1, v⟩
  rw [hbg] at h2 hkw
  dsimp only at h2 hkw ⊢
  rw [hkw]
  exact build_graph_snd_of_some (lookupKey_setKey_of_some _ h2)

/-- A concrete two-layer network with an empty cache. -/
def sampleLayer (nm : String) : Layer :=
  { className := "feedforward", name := nm, size := .nat 1,
    activation := "logistic" }

/-- A concrete network used for the cache counterexample. -/
def net0 : Network :=
  { kwargs := {}, inputs := ["x"],
    layers := [sampleLayer "a", sampleLayer "b"] }

/-- C2, counterexample: on a concrete two-layer network, after `loss` has
been invoked, `build_graph` with the same key no longer returns a value
equal to the one originally stored — the cached monitors list has gained an
`'err'` entry. -/
theorem c2_counterexample :
    (((net0.loss {}).1).build_graph {}).2 ≠ (net0.build_graph {}).2 := by
  decide

/-- `build_graph` never changes the function cache. -/
theorem build_graph_functions (net : Network) (kw : BuildKwargs) :
    ((net.build_graph kw).1).functions = net.functions := by
  cases h : lookupKey net.graphs (hashKey net kw) with
  | some v => rw [build_graph_eq_of_some h]
  | none => rw [build_graph_eq_of_none h]

/-- `feed_forward` on a function-cache hit returns the network unchanged
together with the stored compiled function. -/
theorem feed_forward_eq_of_some {net : Network} {kw : BuildKwargs}
    {f : FunVal} (h : lookupKey net.functions (hashKey net kw) = some f) :
    net.feed_forward kw = (net, f) := by
  simp only [Network.feed_forward, h]

/-- `feed_forward` on a function-cache miss builds the graph, compiles and
stores the function, and returns it. -/
theorem feed_forward_eq_of_none {net : Network} {kw : BuildKwargs}
    (h : lookupKey net.functions (hashKey net kw) = none) :
    net.feed_forward kw =
      ({ (net.build_graph kw).1 with
          functions := ((net.build_graph kw).1).functions ++
            [(hashKey net kw,
              ((net.build_graph kw).2.1, (net.build_graph kw).2.2.2))] },
       ((net.build_graph kw).2.1, (net.build_graph kw).2.2.2)) := by
  simp only [Network.feed_forward, h]

/-- C6: for a fixed layer list (and a fresh function cache), two
`build_graph`/`feed_forward` option sets differing in `input_noise` hash to
two distinct cache keys, and after feeding both through `feed_forward` the
function cache holds entries under both keys and the graph cache holds
entries under both keys. -/
theorem c6_input_noise_distinct_entries (net : Network) (kw1 kw2 : BuildKwargs)
    (h : kw1.input_noise ≠ kw2.input_noise) (hf : net.functions = []) :
    hashKey net kw1 ≠ hashKey net kw2 ∧
    ((lookupKey (((net.feed_forward kw1).1.feed_forward kw2).1).functions
        (hashKey net kw1)).isSome = true ∧
     (lookupKey (((net.feed_forward kw1).1.feed_forward kw2).1).functions
        (hashKey net kw2)).isSome = true) ∧
    ((lookupKey (((net.feed_forward kw1).1.feed_forward kw2).1).graphs
        (hashKey net kw1)).isSome = true ∧
     (lookupKey (((net.feed_forward kw1).1.feed_forward kw2).1).graphs
        (hashKey net kw2)).isSome = true) := by
  have hkey : hashKey net kw1 ≠ hashKey net kw2 := by
    intro he
    exact h (congrArg (fun g => g.kw.input_noise) he)
  have hn1 : lookupKey net.functions (hashKey net kw1) = none := by
    rw [hf]; rfl
  have hff1 := feed_forward_eq_of_none hn1
  have hfun1 : ((net.feed_forward kw1).1).functions =
      net.functions ++ [(hashKey net kw1,
        ((net.build_graph kw1).2.1, (net.build_graph kw1).2.2.2))] := by
    rw [hff1]
    dsimp only
    rw [build_graph_functions net kw1]
  have hgr1 : lookupKey ((net.feed_forward kw1).1).graphs (hashKey net kw1) =
      some ((net.build_graph kw1).2) := by
    rw [hff1]
    exact build_graph_lookup net kw1
  have hlay1 : ((net.feed_forward kw1).1).layers = net.layers := by
    rw [hff1]
    exact build_graph_layers net kw1
  have hk2eq : hashKey ((net.feed_forward kw1).1) kw2 = hashKey net kw2 :=
    hashKey_eq_of_layers hlay1 kw2
  have hn2 : lookupKey ((net.feed_forward kw1).1).functions
      (hashKey ((net.feed_forward kw1).1) kw2) = none := by
    rw [hk2eq, hfun1, hf]
    simp [lookupKey, hkey]
  have hff2 := feed_forward_eq_of_none hn2
  have hfun2 : (((net.feed_forward kw1).1.feed_forward kw2).1).functions =
      ((net.feed_forward kw1).1).functions ++
        [(hashKey ((net.feed_forward kw1).1) kw2,
          (((net.feed_forward kw1).1.build_graph kw2).2.1,
           ((net.feed_forward kw1).1.build_graph kw2).2.2.2))] := by
    rw [hff2]
    dsimp only
    rw [build_graph_functions _ kw2]
  have hgraphs2 : (((net.feed_forward kw1).1.feed_forward kw2).1).graphs =
      (((net.feed_forward kw1).1.build_graph kw2).1).graphs := by
    rw [hff2]
  refine ⟨hkey, ⟨?_, ?_⟩, ⟨?_, ?_⟩⟩
  · rw [hfun2]
    have hsome1 : lookupKey ((net.feed_forward kw1).1).functions
        (hashKey net kw1) = some
          ((net.build_graph kw1).2.1, (net.build_graph kw1).2.2.2) := by
      rw [hfun1, hf]
      simp [lookupKey]
    rw [lookupKey_append_of_some _ hsome1]
    rfl
  · rw [hfun2, hk2eq]
    have hnone2 : lookupKey ((net.feed_forward kw1).1).functions
        (hashKey net kw2) = none := by
      rw [hfun1, hf]
      simp [lookupKey, hkey]
    rw [lookupKey_append_of_none _ hnone2]
    rfl
  · rw [hgraphs2]
    rw [build_graph_preserves hgr1]
    rfl
  · rw [hgraphs2]
    have := build_graph_lookup ((net.feed_forward kw1).1) kw2
    rw [hk2eq] at this
    rw [this]
    rfl

/-- A concrete fresh network used as the C6 witness input. -/
def netSmall : Network :=
  { kwargs := {}, inputs := ["x"], layers := [sampleLayer "a"] }

/-- C6, witness: on a concrete one-layer network with empty caches, the
option sets `{}` and `{input_noise := 1}` produce distinct keys, and both
keys gain entries in the function cache and the graph cache. -/
theorem c6_witness :
    hashKey netSmall {} ≠ hashKey netSmall { input_noise := 1 } ∧
    ((lookupKey (((netSmall.feed_forward {}).1.feed_forward
          { input_noise := 1 }).1).functions
        (hashKey netSmall {})).isSome = true ∧
     (lookupKey (((netSmall.feed_forward {}).1.feed_forward
          { input_noise := 1 }).1).functions
        (hashKey netSmall { input_noise := 1 })).isSome = true) ∧
    ((lookupKey (((netSmall.feed_forward {}).1.feed_forward
          { input_noise := 1 }).1).graphs
        (hashKey netSmall {})).isSome = true ∧
     (lookupKey (((netSmall.feed_forward {}).1.feed_forward
          { input_noise := 1 }).1).graphs
        (hashKey netSmall { input_noise := 1 })).isSome = true) :=
  c6_input_noise_distinct_entries netSmall {} { input_noise := 1 }
    (by norm_num) rfl

/-! ### Topology building -/

/-- Every encoder-loop step appends exactly one layer. -/
theorem length_foldl_encodeStep (hact : String) :
    ∀ (specs : List LayerSpec) (acc : List Layer),
      (specs.foldl (encodeStep hact) acc).length = acc.length + specs.length := by
  intro specs
  induction specs with
  | nil => intro acc; simp
  | cons s rest ih =>
      intro acc
      rw [List.foldl_cons, ih]
      have hstep : (encodeStep hact acc s).length = acc.length + 1 := by
        cases s <;> simp [encodeStep]
      rw [hstep]
      simp only [List.length_cons]
      omega

/-- The successful unfolding of `setup_layers` when the spec's `[:-1]`
prefix is non-empty. -/
theorem setup_layers_cons {k : Kwargs} {spec : List LayerSpec}
    {s0 : LayerSpec} {rest : List LayerSpec} (h1 : k.layers = some spec)
    (hdl : spec.dropLast = s0 :: rest) :
    setup_layers k = some
      ((rest.foldl (encodeStep (k.hidden_activation.getD "logistic"))
          [buildInputLayer s0]) ++
        [setup_decoder k
          (rest.foldl (encodeStep (k.hidden_activation.getD "logistic"))
            [buildInputLayer s0])
          (spec.getLastD (.int 0))]) := by
  simp only [setup_layers, h1, hdl]

/-- A spec of length at least two has a non-empty `[:-1]` prefix. -/
theorem dropLast_cons_of_two_le {spec : List LayerSpec}
    (h2 : 2 ≤ spec.length) :
    ∃ s0 rest, spec.dropLast = s0 :: rest := by
  cases hdd : spec.dropLast with
  | nil =>
      exfalso
      have hlen := List.length_dropLast spec
      rw [hdd] at hlen
      simp at hlen
      omega
  | cons a l => exact ⟨a, l, rfl⟩

/-- C7 (amended): for every topology spec of length at least 2 supplied in
the `layers` option, construction succeeds and the number of layers in the
network equals the number of spec elements (input + encoders + decoder).
(A spec of length 1, though non-empty, makes `specs.pop(0)` raise
`IndexError` — see the counterexample.) -/
theorem c7_layer_count (k : Kwargs) (spec : List LayerSpec)
    (h1 : k.layers = some spec) (h2 : 2 ≤ spec.length) :
    ∃ net, networkNew k = some net ∧ net.layers.length = spec.length := by
  obtain ⟨s0, rest, hdl⟩ := dropLast_cons_of_two_le h2
  have hsl := setup_layers_cons h1 hdl
  refine ⟨{ kwargs := k, inputs := setup_vars k,
            layers :=
              (rest.foldl (encodeStep (k.hidden_activation.getD "logistic"))
                  [buildInputLayer s0]) ++
                [setup_decoder k
                  (rest.foldl
                    (encodeStep (k.hidden_activation.getD "logistic"))
                    [buildInputLayer s0])
                  (spec.getLastD (.int 0))] }, ?_, ?_⟩
  · simp only [networkNew, hsl]
  · show ((rest.foldl (encodeStep (k.hidden_activation.getD "logistic"))
        [buildInputLayer s0]) ++ [_]).length = spec.length
    have hlen := List.length_dropLast spec
    rw [hdl] at hlen
    simp only [List.length_append, length_foldl_encodeStep,
      List.length_singleton, List.length_cons, List.length_nil] at hlen ⊢
    omega

/-- C7, witness: the two-element spec `[2, 3]` constructs a network with
exactly two layers. -/
theorem c7_witness :
    ∃ net,
      networkNew { layers := some [LayerSpec.int 2, LayerSpec.int 3] } =
        some net ∧
      net.layers.length =
        ([LayerSpec.int 2, LayerSpec.int 3] : List LayerSpec).length :=
  c7_layer_count { layers := some [LayerSpec.int 2, LayerSpec.int 3] }
    [LayerSpec.int 2, LayerSpec.int 3] rfl (by norm_num)

/-- C7, counterexample: the one-element spec `[5]` is a non-empty sequence
of LayerSpec elements, yet construction raises (`specs.pop(0)` on the empty
`kwargs['layers'][:-1]`) instead of producing a one-layer network. -/
theorem c7_counterexample :
    networkNew { layers := some [LayerSpec.int 5] } = none ∧
    ([LayerSpec.int 5] : List LayerSpec) ≠ [] :=
  ⟨rfl, by decide⟩

/-- A bare-integer hidden element and its `{'size': n}` mapping form
normalize to the same construction request, hence to the same layer. -/
theorem encodeStep_int_dict (hact : String) (acc : List Layer) (n : Nat) :
    encodeStep hact acc (LayerSpec.int n) =
      encodeStep hact acc (LayerSpec.dict none (some n) none) := rfl

/-- C8: two topology specs that differ only in writing one hidden-layer
element as a bare integer `n` versus as the mapping `{'size': n}` yield
identical layer `size` sequences (the element is hidden: it is neither the
first nor the last spec element). -/
theorem c8_size_sequences (k : Kwargs) (pre post : List LayerSpec) (n : Nat)
    (h1 : pre ≠ []) (h2 : post ≠ []) :
    (setup_layers
        { k with layers := some (pre ++ LayerSpec.int n :: post) }).map
        (fun ls => ls.map (fun l => l.size)) =
      (setup_layers
          { k with
            layers := some (pre ++ LayerSpec.dict none (some n) none :: post) }).map
        (fun ls => ls.map (fun l => l.size)) := by
  obtain ⟨p0, pre', rfl⟩ := List.exists_cons_of_ne_nil h1
  obtain ⟨q0, post', rfl⟩ := List.exists_cons_of_ne_nil h2
  have hdl : ∀ d : LayerSpec,
      ((p0 :: pre') ++ d :: q0 :: post').dropLast =
        p0 :: (pre' ++ d :: (q0 :: post').dropLast) := by
    intro d
    rw [List.dropLast_append_cons]
    rfl
  have hlast :
      ((p0 :: pre') ++ LayerSpec.int n :: q0 :: post').getLastD
          (LayerSpec.int 0) =
        ((p0 :: pre') ++
            LayerSpec.dict none (some n) none :: q0 :: post').getLastD
          (LayerSpec.int 0) := by
    rw [List.getLastD_eq_getLast?, List.getLastD_eq_getLast?,
        List.getLast?_append_cons, List.getLast?_append_cons]
    rfl
  have hbuilt : ∀ hact : String,
      (pre' ++ LayerSpec.int n :: (q0 :: post').dropLast).foldl
          (encodeStep hact) [buildInputLayer p0] =
        (pre' ++
            LayerSpec.dict none (some n) none :: (q0 :: post').dropLast).foldl
          (encodeStep hact) [buildInputLayer p0] := by
    intro hact
    rw [List.foldl_append, List.foldl_append, List.foldl_cons, List.foldl_cons,
        encodeStep_int_dict]
  have hmain : setup_layers
      { k with layers := some ((p0 :: pre') ++ LayerSpec.int n :: q0 :: post') } =
      setup_layers
        { k with
          layers := some ((p0 :: pre') ++
            LayerSpec.dict none (some n) none :: q0 :: post') } := by
    rw [setup_layers_cons rfl (hdl (LayerSpec.int n)),
        setup_layers_cons rfl (hdl (LayerSpec.dict none (some n) none)),
        hbuilt, hlast]
    rfl
  rw [hmain]

/-- C8, witness: the spec `[4, 5, 3]` and the spec `[4, {'size': 5}, 3]`
yield identical layer size sequences. -/
theorem c8_witness :
    (setup_layers
        { layers := some ([LayerSpec.int 4] ++ LayerSpec.int 5 ::
            [LayerSpec.int 3]) }).map
        (fun ls => ls.map (fun l => l.size)) =
      (setup_layers
          { layers := some ([LayerSpec.int 4] ++
              LayerSpec.dict none (some 5) none :: [LayerSpec.int 3]) }).map
        (fun ls => ls.map (fun l => l.size)) :=
  c8_size_sequences {} [LayerSpec.int 4] [LayerSpec.int 3] 5 (by decide)
    (by decide)

/-- C10: for every spec of length at least 2 (whatever the shape of its
last element), construction succeeds with a decoder named `out` appended
last, whose `size` argument is the raw last element of the `layers` option
taken verbatim — an integer when the last element is a bare integer, the
non-integer value itself otherwise, with no normalization and no error
raised by this core. -/
theorem c10_decoder_raw_size (k : Kwargs) (spec : List LayerSpec)
    (h1 : k.layers = some spec) (h2 : 2 ≤ spec.length) :
    ∃ net dec, networkNew k = some net ∧
      net.layers.getLast? = some dec ∧ dec.name = "out" ∧
      dec.size = rawSize (spec.getLastD (LayerSpec.int 0)) := by
  obtain ⟨s0, rest, hdl⟩ := dropLast_cons_of_two_le h2
  have hsl := setup_layers_cons h1 hdl
  refine ⟨{ kwargs := k, inputs := setup_vars k,
            layers :=
              (rest.foldl (encodeStep (k.hidden_activation.getD "logistic"))
                  [buildInputLayer s0]) ++
                [setup_decoder k
                  (rest.foldl
                    (encodeStep (k.hidden_activation.getD "logistic"))
                    [buildInputLayer s0])
                  (spec.getLastD (.int 0))] },
          setup_decoder k
            (rest.foldl (encodeStep (k.hidden_activation.getD "logistic"))
              [buildInputLayer s0])
            (spec.getLastD (.int 0)), ?_, ?_, rfl, rfl⟩
  · simp only [networkNew, hsl]
  · exact List.getLast?_concat _

/-- C10, witness: with the spec `[2, {}]` — a mapping as last element — the
decoder is still built, named `out`, and its size is the raw mapping
itself. -/
theorem c10_witness :
    ∃ net dec,
      networkNew
          { layers := some [LayerSpec.int 2, LayerSpec.dict none none none] } =
        some net ∧
      net.layers.getLast? = some dec ∧ dec.name = "out" ∧
      dec.size = rawSize
        (([LayerSpec.int 2, LayerSpec.dict none none none] :
          List LayerSpec).getLastD (LayerSpec.int 0)) :=
  c10_decoder_raw_size
    { layers := some [LayerSpec.int 2, LayerSpec.dict none none none] }
    [LayerSpec.int 2, LayerSpec.dict none none none] rfl (by norm_num)

/-! ### Decoder wiring in `build_graph` -/

/-- C4 (amended): in `build_graph` with `decode_from = 2` on a 4-layer
topology, the decoder (the last layer) receives as its `inputs` the outputs
of the layers at positions 1 and 2 (0-indexed) — the two layers
immediately preceding it — since `outputs[-2:]` is sliced before the
decoder's own output exists. -/
theorem c4_decoder_inputs (a b c d : Layer) (net : Network)
    (kw : BuildKwargs) (hl : net.layers = [a, b, c, d])
    (hd : net.kwargs.decode_from = some 2)
    (hg : lookupKey net.graphs (hashKey net kw) = none) :
    Expr.inComps (((net.build_graph kw).2.1).getLastD Expr.x) =
      [((net.build_graph kw).2.1).getD 1 Expr.x,
       ((net.build_graph kw).2.1).getD 2 Expr.x] := by
  rw [build_graph_eq_of_none hg]
  dsimp only
  rw [hl, hd]
  rfl

/-- A concrete 4-layer network with `decode_from = 2` and an empty cache. -/
def netC4 : Network :=
  { kwargs := { decode_from := some 2 }, inputs := ["x"],
    layers := [sampleLayer "l0", sampleLayer "l1", sampleLayer "l2",
               sampleLayer "l3"] }

/-- C4, witness: on the concrete 4-layer network, the decoder's inputs are
the outputs at positions 1 and 2. -/
theorem c4_witness :
    Expr.inComps (((netC4.build_graph {}).2.1).getLastD Expr.x) =
      [((netC4.build_graph {}).2.1).getD 1 Expr.x,
       ((netC4.build_graph {}).2.1).getD 2 Expr.x] :=
  c4_decoder_inputs (sampleLayer "l0") (sampleLayer "l1") (sampleLayer "l2")
    (sampleLayer "l3") netC4 {} rfl rfl rfl

/-- C4, counterexample: on the concrete 4-layer network with
`decode_from = 2`, the decoder's inputs are not the outputs of the layers
at positions 2 and 3 (position 3 is the decoder itself). -/
theorem c4_counterexample :
    Expr.inComps (((netC4.build_graph {}).2.1).getLastD Expr.x) ≠
      [((netC4.build_graph {}).2.1).getD 2 Expr.x,
       ((netC4.build_graph {}).2.1).getD 3 Expr.x] := by
  decide

end Theanets
